import Mathlib

/-!
# Verification of the Raccoon MC Modpack Installer

A shallow embedding of `src/htmlAndZipVer10.py`.  Python strings are modelled
as `List Char`; the filesystem effects of one installer run are modelled as a
state (`World`) holding the set of existing directories and the contents of the
launcher registry file, together with a trace of effect events.  Outcomes of
the external operations (HTTP download, zip extraction, per-link copy and
download, interactive input, registry write) are supplied by oracle
environments, since they depend on the outside world.
-/

/-- Python strings are modelled as lists of characters. -/
abbrev Str := List Char

/-- Python string method str.startswith (used at line 21 and line 158). -/
def strStartsWith : Str → Str → Bool
  | _, [] => true
  | [], _ :: _ => false
  | c :: s, d :: t => if c = d then strStartsWith s t else false

/-- Python string method str.endswith (used at lines 21 and 141). -/
def strEndsWith (s t : Str) : Bool := strStartsWith s.reverse t.reverse

/-- Split a string at every slash character (used to model `pathlib.Path` segments). -/
def splitOnSlash : Str → List Str
  | [] => [[]]
  | c :: rest =>
    if c = '/' then [] :: splitOnSlash rest
    else
      match splitOnSlash rest with
      | [] => [[c]]
      | s :: ss => (c :: s) :: ss

/-- The Python expression Path(link).name (line 164): the last nonempty
slash-separated segment of the path, or the empty string when there is
none. -/
def pathName (s : Str) : Str :=
  ((splitOnSlash s).filter (fun seg => !seg.isEmpty)).getLast? |>.getD []

/-- Join two path components with a separator (the pathlib slash operator). -/
def joinPath (a b : Str) : Str := a ++ ('/' :: b)

def zipExt : Str := ".zip".toList
def jarExt : Str := ".jar".toList
def httpPfx : Str := "http".toList
def zipUpperExt : Str := ".ZIP".toList
def jarUpperExt : Str := ".JAR".toList
def txtExt : Str := ".txt".toList
def instancesSeg : Str := "instances".toList
def minecraftSeg : Str := "minecraft".toList
def modsSeg : Str := "mods".toList
def configSeg : Str := "config".toList
def librariesSeg : Str := "libraries".toList
def packZipSeg : Str := "pack.zip".toList

/-- One launcher profile entry (the record built at lines 98-108; the Python
key `"type"` is rendered `ptype` because `type` is reserved in Lean). -/
structure Profile where
  name : Str
  ptype : Str
  created : Str
  lastUsed : Str
  icon : Str
  lastVersionId : Str
  javaDir : Str
  javaArgs : Str
  gameDir : Str
deriving DecidableEq

/-- The registry document `launcher_profiles.json`: a profile mapping (a Python
dict, modelled as an association list in insertion order), an opaque settings
object and a version number. -/
structure RegistryDoc where
  profiles : List (Str × Profile)
  settings : List (Str × Str)
  version : Int
deriving DecidableEq

/-- The default document `{"profiles": {}, "settings": {}, "version": 2}`
(lines 88 and 92). -/
def defaultRegistryDoc : RegistryDoc := { profiles := [], settings := [], version := 2 }

/-- Python dict assignment `d[k] = v` (line 98): replace the binding in place
when the key is present (keeping its position), otherwise append at the end. -/
def dictInsert (k : Str) (v : Profile) : List (Str × Profile) → List (Str × Profile)
  | [] => [(k, v)]
  | (k', v') :: rest =>
    if k' = k then (k, v) :: rest
    else (k', v') :: dictInsert k v rest

/-- Dict lookup: the value bound to `k`, if any. -/
def lookupKey (k : Str) : List (Str × Profile) → Option Profile
  | [] => none
  | (k', v') :: rest => if k' = k then some v' else lookupKey k rest

/-- Dict membership test for a key. -/
def containsKey (k : Str) : List (Str × Profile) → Bool
  | [] => false
  | (k', _) :: rest => if k' = k then true else containsKey k rest

/-- The number of bindings carrying key `k`. -/
def countKey (k : Str) : List (Str × Profile) → Nat
  | [] => 0
  | (k', _) :: rest => (if k' = k then 1 else 0) + countKey k rest

/-- Keys of the profile mapping are pairwise distinct (always true of a Python
dict; stated as an invariant on the association-list model). -/
def keysNodup (l : List (Str × Profile)) : Prop := (l.map Prod.fst).Nodup

/-- The profile record built at lines 98-108 / 195-205: all fields fixed
except the pack name, the interactively supplied version and the game
directory. -/
def mkProfileEntry (packName version gameDir : Str) : Profile :=
  { name := packName
    ptype := "custom".toList
    created := "2024-01-01T00:00:00.000Z".toList
    lastUsed := "2024-01-01T00:00:00.000Z".toList
    icon := "Furnace".toList
    lastVersionId := version
    javaDir := []
    javaArgs := "-Xmx4G".toList
    gameDir := gameDir }

instance : Inhabited Profile := ⟨mkProfileEntry [] [] []⟩

/-- The content of the registry file on disk: either bytes that do not parse
as JSON, or a parsed document. -/
inductive RegContent where
  | raw (bytes : Str)
  | doc (d : RegistryDoc)
deriving DecidableEq

/-- The state of the registry file and its `.bak` sibling (`none` = the file
does not exist). -/
structure RegState where
  live : Option RegContent
  bak : Option RegContent
deriving DecidableEq

/-- One observable effect of an installer run.  Informational progress prints
are elided; every print that reports an error or a decision keeps an event. -/
inductive Event where
  | printInvalidUrl
  | mkDirEv (path : Str)
  | downloadEv (url : Str) (dest : Str)
  | printDownloadError
  | extractEv (src : Str) (dest : Str)
  | printExtractError
  | moveEv (src : Str) (dest : Str)
  | printUpdating
  | printDecodeError
  | regBackupEv
  | regWriteEv
  | printWriteError
  | printParseError
  | copyModEv (src : Str) (dest : Str)
  | printCopyError (link : Str)
  | downloadModEv (url : Str) (dest : Str)
  | printStatusError (link : Str)
  | printDownloadErrorLink (link : Str)
  | printUnsupported (link : Str)
deriving DecidableEq

/-- How an installer run ended (which `return` statement, if any, cut it
short; the Python functions themselves always return `None`). -/
inductive Outcome where
  | ok
  | invalidUrl
  | dirExistsFailure
  | downloadFailed
  | extractFailed
  | writeFailed
  | parseFailed
deriving DecidableEq

/-- The part of the filesystem the claims observe: which directories exist,
and the registry file with its backup. -/
structure World where
  dirs : List Str
  reg : RegState
deriving DecidableEq

/-- Python call Path.mkdir(parents=True, exist_ok=ok): raises an error when the
path already exists and `exist_ok` is false, otherwise records the path as
existing.  (Creation of intermediate parent directories is elided: the claims
only observe failure on the target path.) -/
def pyMkdir (dirs : List Str) (path : Str) (existOk : Bool) : Except Unit (List Str) :=
  if path ∈ dirs then
    if existOk then Except.ok dirs else Except.error ()
  else Except.ok (path :: dirs)

/-- Record a path as an existing directory (the success result of `pyMkdir`). -/
def mkdirPE (dirs : List Str) (path : Str) : List Str :=
  if path ∈ dirs then dirs else path :: dirs

/-- Run a sequence of `mkdir(parents=True, exist_ok=True)` calls, as the
installer does, collecting the attempted-creation events. -/
def mkdirsSeq (dirs : List Str) : List Str → Except Unit (List Str × List Event)
  | [] => Except.ok (dirs, [])
  | p :: ps =>
    match pyMkdir dirs p true with
    | Except.error e => Except.error e
    | Except.ok d' =>
      match mkdirsSeq d' ps with
      | Except.error e => Except.error e
      | Except.ok (d'', evs) => Except.ok (d'', Event.mkDirEv p :: evs)

/-- Lines 82-115 / 178-212, the registry updater shared by both installers:
read the registry file (defaulting when absent, backing up and defaulting when
corrupt), insert or overwrite the profile entry for `packName`, and write the
document back.  `writeOk` is the oracle for the final write (on failure the
exception is reported and the run returns; the file content is left as it
was). -/
def updateLauncherProfiles (reg : RegState) (packName version gameDir : Str)
    (writeOk : Bool) : RegState × List Event × Bool :=
  let readRes : RegState × List Event × RegistryDoc :=
    match reg.live with
    | none => (reg, [Event.printUpdating], defaultRegistryDoc)
    | some (RegContent.raw b) =>
        ({ reg with bak := some (RegContent.raw b) },
         [Event.printUpdating, Event.printDecodeError, Event.regBackupEv],
         defaultRegistryDoc)
    | some (RegContent.doc d) => (reg, [Event.printUpdating], d)
  let reg1 := readRes.1
  let pre := readRes.2.1
  let data := readRes.2.2
  let entry := mkProfileEntry packName version gameDir
  let data2 : RegistryDoc := { data with profiles := dictInsert packName entry data.profiles }
  if writeOk then
    ({ reg1 with live := some (RegContent.doc data2) }, pre ++ [Event.regWriteEv], true)
  else
    (reg1, pre ++ [Event.printWriteError], false)

/-- Oracle environment for one archive-installer run: outcomes of the download
and the extraction, the listing of the extracted `mods`/`config`/`libraries`
source folders, the interactive version input, and the registry-write
outcome. -/
structure ArchiveEnv where
  downloadOk : Bool
  extractOk : Bool
  modsSrcExists : Bool
  modsItems : List Str
  configSrcExists : Bool
  configItems : List Str
  libSrcExists : Bool
  libItems : List Str
  versionInput : Str
  writeOk : Bool

/-- Lines 10-117, `download_and_install_ftb_pack_from_link`: validate the URL,
create the instance directories, download and extract the archive, move the
known subfolders into the nested `minecraft` working directory, and update the
registry.  (`Path(minecraft_dir).expanduser().resolve()` is modelled as the
identity: `minecraft_dir` stands for the already-resolved root.  The per-item
`shutil.move` calls of lines 63-80 are recorded as events; in Python such a
move can raise an uncaught error — for instance when the destination item
already exists on a repeat run — which crashes the process before the registry
update.  That crash path is not modelled, so results about a completed run
apply to runs whose moves all succeeded.) -/
def download_and_install_ftb_pack_from_link
    (packUrl minecraftDir packName : Str) (env : ArchiveEnv) (w : World) :
    World × List Event × Outcome :=
  if !strEndsWith packUrl zipExt || !strStartsWith packUrl httpPfx then
    (w, [Event.printInvalidUrl], Outcome.invalidUrl)
  else
    let minecraftPath := minecraftDir
    let instancesDir := joinPath minecraftPath instancesSeg
    let packInstanceDir := joinPath instancesDir packName
    match mkdirsSeq w.dirs [instancesDir, packInstanceDir] with
    | Except.error _ => (w, [], Outcome.dirExistsFailure)
    | Except.ok (d1, ev1) =>
      let zipFilePath := joinPath packInstanceDir packZipSeg
      let ev2 := ev1 ++ [Event.downloadEv packUrl zipFilePath]
      if !env.downloadOk then
        ({ w with dirs := d1 }, ev2 ++ [Event.printDownloadError], Outcome.downloadFailed)
      else
        let ev3 := ev2 ++ [Event.extractEv zipFilePath packInstanceDir]
        if !env.extractOk then
          ({ w with dirs := d1 }, ev3 ++ [Event.printExtractError], Outcome.extractFailed)
        else
          let modsSourceDir := joinPath packInstanceDir modsSeg
          let configSourceDir := joinPath packInstanceDir configSeg
          let mcDir := joinPath packInstanceDir minecraftSeg
          let modsTargetDir := joinPath mcDir modsSeg
          let configTargetDir := joinPath mcDir configSeg
          match mkdirsSeq d1 [mcDir, modsTargetDir, configTargetDir] with
          | Except.error _ => ({ w with dirs := d1 }, ev3, Outcome.dirExistsFailure)
          | Except.ok (d2, ev4) =>
            let modsMoves :=
              if env.modsSrcExists then
                env.modsItems.map (fun it => Event.moveEv (joinPath modsSourceDir it) modsTargetDir)
              else []
            let configMoves :=
              if env.configSrcExists then
                env.configItems.map
                  (fun it => Event.moveEv (joinPath configSourceDir it) configTargetDir)
              else []
            let librariesSourceDir := joinPath packInstanceDir librariesSeg
            let librariesTargetDir := joinPath mcDir librariesSeg
            match mkdirsSeq d2 [librariesTargetDir] with
            | Except.error _ => ({ w with dirs := d2 }, ev3 ++ ev4, Outcome.dirExistsFailure)
            | Except.ok (d3, ev5) =>
              let libMoves :=
                if env.libSrcExists then
                  env.libItems.map
                    (fun it => Event.moveEv (joinPath librariesSourceDir it) librariesTargetDir)
                else []
              let u := updateLauncherProfiles w.reg packName env.versionInput
                (joinPath packInstanceDir minecraftSeg) env.writeOk
              ({ dirs := d3, reg := u.1 },
               ev3 ++ ev4 ++ modsMoves ++ configMoves ++ ev5 ++ libMoves ++ u.2.1,
               if u.2.2 then Outcome.ok else Outcome.writeFailed)

/-- Oracle environment for one scrape-installer run: whether the HTML file
opens and parses, the `href` attribute of each anchor in document order
(`none` when the attribute is missing), and per-link oracles for
`os.path.isfile`, copy success, `requests.get` raising, and the HTTP status
code; plus the interactive version input and the registry-write outcome. -/
structure HtmlEnv where
  htmlOk : Bool
  anchors : List (Option Str)
  isLocalFile : Str → Bool
  copyOk : Str → Bool
  getRaises : Str → Bool
  status : Str → Int
  versionInput : Str
  writeOk : Bool

/-- Lines 137-142: collect every anchor `href` that is truthy (present and
nonempty) and ends in `.jar` or `.zip`. -/
def collectModLinks (anchors : List (Option Str)) : List Str :=
  anchors.filterMap (fun h? =>
    match h? with
    | none => none
    | some href =>
      if !href.isEmpty && (strEndsWith href jarExt || strEndsWith href zipExt) then some href
      else none)

/-- Lines 149-176, the body of the per-link loop: copy an existing local file,
else stream-download an `http` link under its final path segment, else report
the link as unsupported; every failure is caught and reported. -/
def processLink (env : HtmlEnv) (modsDir : Str) (link : Str) : List Event :=
  if env.isLocalFile link then
    if env.copyOk link then [Event.copyModEv link modsDir]
    else [Event.printCopyError link]
  else if strStartsWith link httpPfx then
    if env.getRaises link then [Event.printDownloadErrorLink link]
    else if env.status link = 200 then
      [Event.downloadModEv link (joinPath modsDir (pathName link))]
    else [Event.printStatusError link]
  else [Event.printUnsupported link]

/-- Lines 119-214, `download_and_install_ftb_pack_from_html`: parse the local
HTML file (a parse failure aborts the run), collect the mod links, process
each link in turn, and update the registry with the root itself as the game
directory. -/
def download_and_install_ftb_pack_from_html
    (minecraftDir packName : Str) (env : HtmlEnv) (w : World) :
    World × List Event × Outcome :=
  if !env.htmlOk then (w, [Event.printParseError], Outcome.parseFailed)
  else
    let modLinks := collectModLinks env.anchors
    let minecraftPath := minecraftDir
    let modsDir := joinPath minecraftPath modsSeg
    match mkdirsSeq w.dirs [modsDir] with
    | Except.error _ => (w, [], Outcome.dirExistsFailure)
    | Except.ok (d1, ev1) =>
      let linkEvs := (modLinks.map (processLink env modsDir)).flatten
      let u := updateLauncherProfiles w.reg packName env.versionInput minecraftPath env.writeOk
      ({ dirs := d1, reg := u.1 },
       ev1 ++ linkEvs ++ u.2.1,
       if u.2.2 then Outcome.ok else Outcome.writeFailed)

/-- The link an event is about, when the event concerns a single mod link. -/
def eventLink : Event → Option Str
  | Event.copyModEv src _ => some src
  | Event.printCopyError l => some l
  | Event.downloadModEv u _ => some u
  | Event.printStatusError l => some l
  | Event.printDownloadErrorLink l => some l
  | Event.printUnsupported l => some l
  | _ => none

def isMkDirEv : Event → Bool
  | Event.mkDirEv _ => true
  | _ => false

def isMoveEv : Event → Bool
  | Event.moveEv _ _ => true
  | _ => false

def isDownloadEv : Event → Bool
  | Event.downloadEv _ _ => true
  | _ => false

def isRegMutationEv : Event → Bool
  | Event.regWriteEv => true
  | Event.regBackupEv => true
  | _ => false

def isDownloadModEv : Event → Bool
  | Event.downloadModEv _ _ => true
  | _ => false

def isCopyModEv : Event → Bool
  | Event.copyModEv _ _ => true
  | _ => false

/-- Events that the registry updater can emit. -/
def isRegUpdEv : Event → Bool
  | Event.printUpdating => true
  | Event.printDecodeError => true
  | Event.regBackupEv => true
  | Event.regWriteEv => true
  | Event.printWriteError => true
  | _ => false

/-- The pure directory-set effect of a sequence of
`mkdir(parents=True, exist_ok=True)` calls (the success value of
`mkdirsSeq`). -/
def mkdirFold (dirs : List Str) : List Str → List Str
  | [] => dirs
  | p :: ps => mkdirFold (mkdirPE dirs p) ps

/-- Modelled from the spec for comparison with the code: the predicate named
by the words of the C2 and C5 claims, that a link IS an HTTP(S) URL, i.e. one
whose scheme is http or https.  The code itself tests only
startswith "http". -/
def schemeIsHttpS (u : Str) : Bool :=
  strStartsWith u "http://".toList || strStartsWith u "https://".toList

/-- Concrete fixtures used by witnesses and counterexamples. -/
def cexRoot : Str := "/mc".toList

def cexName : Str := "Pack".toList

def cexEnv : ArchiveEnv :=
  { downloadOk := false, extractOk := false, modsSrcExists := false, modsItems := []
    configSrcExists := false, configItems := [], libSrcExists := false, libItems := []
    versionInput := [], writeOk := false }

def cexWorld : World := { dirs := [], reg := { live := none, bak := none } }

def urlOk : Str := "http://example.com/pack.zip".toList

def badSchemeUrl : Str := "httpx://a.zip".toList

def ftpUrl : Str := "ftp://x.zip".toList

def zipUpperUrl : Str := "http://a.ZIP".toList

def okEnv : ArchiveEnv :=
  { downloadOk := true, extractOk := true, modsSrcExists := true
    modsItems := ["m.jar".toList], configSrcExists := false, configItems := []
    libSrcExists := false, libItems := [], versionInput := "1.20.1".toList, writeOk := true }

def otherProfile : Profile := mkProfileEntry ("Other".toList) ("1.19".toList) ("g".toList)

def docW : RegistryDoc :=
  { profiles := [("Other".toList, otherProfile)], settings := [], version := 2 }

def worldDoc : World := { dirs := [], reg := { live := some (RegContent.doc docW), bak := none } }

def worldRaw : World :=
  { dirs := [], reg := { live := some (RegContent.raw ("oops".toList)), bak := none } }

def c5link : Str := "httpx.jar".toList

def c5env : HtmlEnv :=
  { htmlOk := true, anchors := [some c5link], isLocalFile := fun _ => false
    copyOk := fun _ => false, getRaises := fun _ => false, status := fun _ => 200
    versionInput := [], writeOk := true }

def c6env : HtmlEnv :=
  { htmlOk := true, anchors := [some ("a.txt".toList), some ("b.jar".toList)]
    isLocalFile := fun _ => false, copyOk := fun _ => false, getRaises := fun _ => false
    status := fun _ => 200, versionInput := [], writeOk := true }

def c10env : HtmlEnv :=
  { htmlOk := true, anchors := [some ("mods/c.jar".toList)]
    isLocalFile := fun _ => true, copyOk := fun _ => true, getRaises := fun _ => false
    status := fun _ => 200, versionInput := [], writeOk := true }

/-! ## Helper lemmas -/

theorem strStartsWith_head {s t : Str} {c : Char} (h : strStartsWith s (c :: t) = true) :
    s.head? = some c := by
  cases s with
  | nil => simp [strStartsWith] at h
  | cons c' s' =>
    by_cases hc : c' = c
    · simp [hc]
    · simp [strStartsWith, hc] at h

theorem strEndsWith_head {s t : Str} {c : Char} {r : Str} (ht : t.reverse = c :: r)
    (h : strEndsWith s t = true) : s.reverse.head? = some c := by
  unfold strEndsWith at h
  rw [ht] at h
  exact strStartsWith_head h

theorem strEndsWith_false_of_head_ne {s t1 t2 : Str} {c1 c2 : Char} {r1 r2 : Str}
    (ht1 : t1.reverse = c1 :: r1) (ht2 : t2.reverse = c2 :: r2) (hne : c1 ≠ c2)
    (h : strEndsWith s t1 = true) : strEndsWith s t2 = false := by
  rcases Bool.eq_false_or_eq_true (strEndsWith s t2) with hb | hb
  · exfalso
    have a1 := strEndsWith_head ht1 h
    have a2 := strEndsWith_head ht2 hb
    rw [a1] at a2
    exact hne (Option.some.inj a2)
  · exact hb

theorem strEndsWith_nil_ne {l t : Str} {c : Char} {r : Str} (ht : t.reverse = c :: r)
    (h : strEndsWith l t = true) : l.isEmpty = false := by
  cases l with
  | nil =>
    unfold strEndsWith at h
    rw [ht] at h
    simp [strStartsWith] at h
  | cons a s => rfl

theorem lookupKey_dictInsert_self (k : Str) (v : Profile) (l : List (Str × Profile)) :
    lookupKey k (dictInsert k v l) = some v := by
  induction l with
  | nil => simp [dictInsert, lookupKey]
  | cons p rest ih =>
    obtain ⟨k', v'⟩ := p
    by_cases h : k' = k
    · simp [dictInsert, h, lookupKey]
    · simp [dictInsert, h, lookupKey, ih]

theorem lookupKey_dictInsert_ne (k k' : Str) (v : Profile) (l : List (Str × Profile))
    (h : k' ≠ k) : lookupKey k' (dictInsert k v l) = lookupKey k' l := by
  induction l with
  | nil => simp [dictInsert, lookupKey, Ne.symm h]
  | cons p rest ih =>
    obtain ⟨k0, v0⟩ := p
    by_cases h0 : k0 = k
    · subst h0
      simp [dictInsert, lookupKey, Ne.symm h]
    · simp [dictInsert, h0, lookupKey, ih]

theorem mem_keys_dictInsert (a k : Str) (v : Profile) (l : List (Str × Profile)) :
    a ∈ (dictInsert k v l).map Prod.fst ↔ a = k ∨ a ∈ l.map Prod.fst := by
  induction l with
  | nil => simp [dictInsert]
  | cons p rest ih =>
    obtain ⟨k0, v0⟩ := p
    by_cases h0 : k0 = k
    · subst h0
      simp [dictInsert]
    · simp only [dictInsert, if_neg h0, List.map_cons, List.mem_cons, ih]
      tauto

theorem keysNodup_dictInsert (k : Str) (v : Profile) (l : List (Str × Profile))
    (h : keysNodup l) : keysNodup (dictInsert k v l) := by
  induction l with
  | nil => simp [dictInsert, keysNodup]
  | cons p rest ih =>
    obtain ⟨k0, v0⟩ := p
    unfold keysNodup at h ⊢
    by_cases h0 : k0 = k
    · subst h0
      simp only [dictInsert, if_pos rfl, List.map_cons] at h ⊢
      exact h
    · simp only [dictInsert, if_neg h0, List.map_cons] at h ⊢
      rw [List.nodup_cons] at h ⊢
      obtain ⟨hnotin, hnd⟩ := h
      refine ⟨?_, ih hnd⟩
      rw [mem_keys_dictInsert]
      push_neg
      exact ⟨h0, hnotin⟩

theorem countKey_eq_zero_of_not_mem (k : Str) (l : List (Str × Profile))
    (h : k ∉ l.map Prod.fst) : countKey k l = 0 := by
  induction l with
  | nil => rfl
  | cons p rest ih =>
    obtain ⟨k0, v0⟩ := p
    simp only [List.map_cons, List.mem_cons] at h
    push_neg at h
    obtain ⟨h1, h2⟩ := h
    simp [countKey, Ne.symm h1]
    exact ih h2

theorem countKey_dictInsert_of_nodup (k : Str) (v : Profile) (l : List (Str × Profile))
    (h : keysNodup l) : countKey k (dictInsert k v l) = 1 := by
  induction l with
  | nil => simp [dictInsert, countKey]
  | cons p rest ih =>
    obtain ⟨k0, v0⟩ := p
    unfold keysNodup at h
    simp only [List.map_cons, List.nodup_cons] at h
    obtain ⟨hnotin, hnd⟩ := h
    by_cases h0 : k0 = k
    · subst h0
      simp only [dictInsert, if_pos rfl]
      simp [countKey]
      exact countKey_eq_zero_of_not_mem _ _ hnotin
    · simp only [dictInsert, if_neg h0]
      simp [countKey, h0]
      exact ih hnd

theorem length_dictInsert_of_containsKey (k : Str) (v : Profile) (l : List (Str × Profile))
    (h : containsKey k l = true) : (dictInsert k v l).length = l.length := by
  induction l with
  | nil => simp [containsKey] at h
  | cons p rest ih =>
    obtain ⟨k0, v0⟩ := p
    by_cases h0 : k0 = k
    · simp [dictInsert, h0]
    · simp [containsKey, h0] at h
      simp [dictInsert, h0, ih h]

theorem keys_dictInsert_of_containsKey (k : Str) (v : Profile) (l : List (Str × Profile))
    (h : containsKey k l = true) : (dictInsert k v l).map Prod.fst = l.map Prod.fst := by
  induction l with
  | nil => simp [containsKey] at h
  | cons p rest ih =>
    obtain ⟨k0, v0⟩ := p
    by_cases h0 : k0 = k
    · subst h0
      simp [dictInsert]
    · simp [containsKey, h0] at h
      simp [dictInsert, h0, ih h]

theorem pyMkdir_existOk (dirs : List Str) (p : Str) :
    pyMkdir dirs p true = Except.ok (mkdirPE dirs p) := by
  unfold pyMkdir mkdirPE
  split <;> simp

theorem mkdirsSeq_ok (ps : List Str) (dirs : List Str) :
    mkdirsSeq dirs ps = Except.ok (mkdirFold dirs ps, ps.map Event.mkDirEv) := by
  induction ps generalizing dirs with
  | nil => rfl
  | cons p ps ih => simp [mkdirsSeq, pyMkdir_existOk, ih, mkdirFold]

theorem updateLauncherProfiles_flag (reg : RegState) (pn v gd : Str) (wOk : Bool) :
    (updateLauncherProfiles reg pn v gd wOk).2.2 = wOk := by
  unfold updateLauncherProfiles
  cases wOk <;> simp

theorem updateLauncherProfiles_doc (reg : RegState) (pn v gd : Str) (d : RegistryDoc)
    (hl : reg.live = some (RegContent.doc d)) :
    updateLauncherProfiles reg pn v gd true =
      ({ live := some (RegContent.doc
           { profiles := dictInsert pn (mkProfileEntry pn v gd) d.profiles
             settings := d.settings
             version := d.version })
         bak := reg.bak },
       [Event.printUpdating, Event.regWriteEv], true) := by
  simp [updateLauncherProfiles, hl]

theorem updateLauncherProfiles_raw (reg : RegState) (pn v gd b : Str)
    (hl : reg.live = some (RegContent.raw b)) :
    updateLauncherProfiles reg pn v gd true =
      ({ live := some (RegContent.doc
           { profiles := [(pn, mkProfileEntry pn v gd)]
             settings := []
             version := 2 })
         bak := some (RegContent.raw b) },
       [Event.printUpdating, Event.printDecodeError, Event.regBackupEv, Event.regWriteEv],
       true) := by
  simp [updateLauncherProfiles, hl, defaultRegistryDoc, dictInsert]

theorem isRegUpdEv_of_mem_update (reg : RegState) (pn v gd : Str) (wOk : Bool) (e : Event)
    (he : e ∈ (updateLauncherProfiles reg pn v gd wOk).2.1) : isRegUpdEv e = true := by
  cases hl : reg.live with
  | none =>
    cases wOk <;> simp [updateLauncherProfiles, hl] at he <;>
      rcases he with rfl | rfl <;> rfl
  | some cont =>
    cases cont with
    | raw b =>
      cases wOk <;> simp [updateLauncherProfiles, hl] at he <;>
        rcases he with rfl | rfl | rfl | rfl <;> rfl
    | doc d =>
      cases wOk <;> simp [updateLauncherProfiles, hl] at he <;>
        rcases he with rfl | rfl <;> rfl

theorem eventLink_none_of_isRegUpdEv (e : Event) (h : isRegUpdEv e = true) :
    eventLink e = none := by
  cases e <;> first | rfl | simp [isRegUpdEv] at h

theorem eventLink_processLink (env : HtmlEnv) (md l : Str) (e : Event)
    (he : e ∈ processLink env md l) : eventLink e = some l := by
  unfold processLink at he
  split_ifs at he <;> simp at he <;> subst he <;> rfl

theorem from_html_run_eq (mdir pn : Str) (env : HtmlEnv) (w : World)
    (hh : env.htmlOk = true) :
    download_and_install_ftb_pack_from_html mdir pn env w =
      ({ dirs := mkdirPE w.dirs (joinPath mdir modsSeg)
         reg := (updateLauncherProfiles w.reg pn env.versionInput mdir env.writeOk).1 },
       Event.mkDirEv (joinPath mdir modsSeg) ::
         (((collectModLinks env.anchors).map (processLink env (joinPath mdir modsSeg))).flatten ++
          (updateLauncherProfiles w.reg pn env.versionInput mdir env.writeOk).2.1),
       if (updateLauncherProfiles w.reg pn env.versionInput mdir env.writeOk).2.2 then Outcome.ok
       else Outcome.writeFailed) := by
  simp [download_and_install_ftb_pack_from_html, hh, mkdirsSeq_ok, mkdirFold]

theorem from_link_reg (url mdir pn : Str) (env : ArchiveEnv) (w : World)
    (hz : strEndsWith url zipExt = true) (hh : strStartsWith url httpPfx = true)
    (hd : env.downloadOk = true) (he : env.extractOk = true) :
    (download_and_install_ftb_pack_from_link url mdir pn env w).1.reg =
      (updateLauncherProfiles w.reg pn env.versionInput
        (joinPath (joinPath (joinPath mdir instancesSeg) pn) minecraftSeg) env.writeOk).1 := by
  simp [download_and_install_ftb_pack_from_link, hz, hh, hd, he, mkdirsSeq_ok]

theorem from_link_outcome (url mdir pn : Str) (env : ArchiveEnv) (w : World)
    (hz : strEndsWith url zipExt = true) (hh : strStartsWith url httpPfx = true)
    (hd : env.downloadOk = true) (he : env.extractOk = true) :
    (download_and_install_ftb_pack_from_link url mdir pn env w).2.2 =
      (if env.writeOk then Outcome.ok else Outcome.writeFailed) := by
  simp [download_and_install_ftb_pack_from_link, hz, hh, hd, he, mkdirsSeq_ok,
    updateLauncherProfiles_flag]

theorem endsWith_JAR_excl {s : Str} (h : strEndsWith s jarUpperExt = true) :
    strEndsWith s jarExt = false ∧ strEndsWith s zipExt = false :=
  ⟨strEndsWith_false_of_head_ne
      (by decide : jarUpperExt.reverse = 'R' :: ['A', 'J', '.'])
      (by decide : jarExt.reverse = 'r' :: ['a', 'j', '.']) (by decide) h,
   strEndsWith_false_of_head_ne
      (by decide : jarUpperExt.reverse = 'R' :: ['A', 'J', '.'])
      (by decide : zipExt.reverse = 'p' :: ['i', 'z', '.']) (by decide) h⟩

theorem endsWith_ZIP_excl {s : Str} (h : strEndsWith s zipUpperExt = true) :
    strEndsWith s jarExt = false ∧ strEndsWith s zipExt = false :=
  ⟨strEndsWith_false_of_head_ne
      (by decide : zipUpperExt.reverse = 'P' :: ['I', 'Z', '.'])
      (by decide : jarExt.reverse = 'r' :: ['a', 'j', '.']) (by decide) h,
   strEndsWith_false_of_head_ne
      (by decide : zipUpperExt.reverse = 'P' :: ['I', 'Z', '.'])
      (by decide : zipExt.reverse = 'p' :: ['i', 'z', '.']) (by decide) h⟩

theorem mem_collectModLinks (anchors : List (Option Str)) (l : Str) :
    l ∈ collectModLinks anchors ↔
      some l ∈ anchors ∧ (strEndsWith l jarExt = true ∨ strEndsWith l zipExt = true) := by
  unfold collectModLinks
  rw [List.mem_filterMap]
  constructor
  · rintro ⟨a, ha, hfa⟩
    cases a with
    | none => simp at hfa
    | some href =>
      simp only at hfa
      split_ifs at hfa with hc
      · obtain rfl : href = l := Option.some.inj hfa
        rw [Bool.and_eq_true, Bool.or_eq_true] at hc
        exact ⟨ha, hc.2⟩
  · rintro ⟨ha, hor⟩
    refine ⟨some l, ha, ?_⟩
    have hne : l.isEmpty = false := by
      rcases hor with h | h
      · exact strEndsWith_nil_ne (by decide : jarExt.reverse = 'r' :: ['a', 'j', '.']) h
      · exact strEndsWith_nil_ne (by decide : zipExt.reverse = 'p' :: ['i', 'z', '.']) h
    simp only
    rw [if_pos]
    rw [Bool.and_eq_true, Bool.or_eq_true]
    exact ⟨by rw [hne]; rfl, hor⟩

theorem from_link_reject (url mdir pn : Str) (env : ArchiveEnv) (w : World)
    (h : strEndsWith url zipExt = false ∨ strStartsWith url httpPfx = false) :
    download_and_install_ftb_pack_from_link url mdir pn env w =
      (w, [Event.printInvalidUrl], Outcome.invalidUrl) := by
  rcases h with h | h <;> simp [download_and_install_ftb_pack_from_link, h]

theorem from_link_download_fail (url mdir pn : Str) (env : ArchiveEnv) (w : World)
    (hz : strEndsWith url zipExt = true) (hh : strStartsWith url httpPfx = true)
    (hd : env.downloadOk = false) :
    download_and_install_ftb_pack_from_link url mdir pn env w =
      ({ dirs := mkdirPE (mkdirPE w.dirs (joinPath mdir instancesSeg)) (joinPath (joinPath mdir instancesSeg) pn), reg := w.reg },
       [Event.mkDirEv (joinPath mdir instancesSeg),
        Event.mkDirEv (joinPath (joinPath mdir instancesSeg) pn),
        Event.downloadEv url (joinPath (joinPath (joinPath mdir instancesSeg) pn) packZipSeg),
        Event.printDownloadError],
       Outcome.downloadFailed) := by
  simp [download_and_install_ftb_pack_from_link, hz, hh, hd, mkdirsSeq_ok, mkdirFold]

theorem from_link_extract_fail (url mdir pn : Str) (env : ArchiveEnv) (w : World)
    (hz : strEndsWith url zipExt = true) (hh : strStartsWith url httpPfx = true)
    (hd : env.downloadOk = true) (he : env.extractOk = false) :
    download_and_install_ftb_pack_from_link url mdir pn env w =
      ({ dirs := mkdirPE (mkdirPE w.dirs (joinPath mdir instancesSeg)) (joinPath (joinPath mdir instancesSeg) pn), reg := w.reg },
       [Event.mkDirEv (joinPath mdir instancesSeg),
        Event.mkDirEv (joinPath (joinPath mdir instancesSeg) pn),
        Event.downloadEv url (joinPath (joinPath (joinPath mdir instancesSeg) pn) packZipSeg),
        Event.extractEv (joinPath (joinPath (joinPath mdir instancesSeg) pn) packZipSeg)
          (joinPath (joinPath mdir instancesSeg) pn),
        Event.printExtractError],
       Outcome.extractFailed) := by
  simp [download_and_install_ftb_pack_from_link, hz, hh, hd, he, mkdirsSeq_ok, mkdirFold]

theorem from_link_no_dirExists (url mdir pn : Str) (env : ArchiveEnv) (w : World) :
    (download_and_install_ftb_pack_from_link url mdir pn env w).2.2 ≠
      Outcome.dirExistsFailure := by
  simp only [download_and_install_ftb_pack_from_link, mkdirsSeq_ok]
  split_ifs <;> simp

theorem updateLauncherProfiles_live_false (reg : RegState) (pn v gd : Str) :
    (updateLauncherProfiles reg pn v gd false).1.live = reg.live := by
  cases hl : reg.live with
  | none => simp [updateLauncherProfiles, hl]
  | some cont => cases cont <;> simp [updateLauncherProfiles, hl]

theorem updateLauncherProfiles_none (reg : RegState) (pn v gd : Str) (hl : reg.live = none) :
    updateLauncherProfiles reg pn v gd true =
      ({ live := some (RegContent.doc
           { profiles := [(pn, mkProfileEntry pn v gd)]
             settings := []
             version := 2 })
         bak := reg.bak },
       [Event.printUpdating, Event.regWriteEv], true) := by
  simp [updateLauncherProfiles, hl, defaultRegistryDoc, dictInsert]

/-! ## Claims -/

/-- C1: after a successful archive-installer run on a registry file holding a
parseable document, the registry contains exactly one entry keyed by the pack
name, bound to the fixed-field profile record with the supplied version and
the nested working directory (root/instances/pack/minecraft) as game
directory; every entry for any other pack name, the settings object and the
version number are unchanged. -/
theorem claim_C1 (url mdir pn : Str) (env : ArchiveEnv) (w : World) (d : RegistryDoc)
    (hz : strEndsWith url zipExt = true) (hh : strStartsWith url httpPfx = true)
    (hd : env.downloadOk = true) (he : env.extractOk = true) (hw : env.writeOk = true)
    (hl : w.reg.live = some (RegContent.doc d)) (hnd : keysNodup d.profiles) :
    (download_and_install_ftb_pack_from_link url mdir pn env w).2.2 = Outcome.ok ∧
    ∃ d', (download_and_install_ftb_pack_from_link url mdir pn env w).1.reg.live =
        some (RegContent.doc d') ∧
      countKey pn d'.profiles = 1 ∧
      lookupKey pn d'.profiles =
        some (mkProfileEntry pn env.versionInput
          (joinPath (joinPath (joinPath mdir instancesSeg) pn) minecraftSeg)) ∧
      (∀ k, k ≠ pn → lookupKey k d'.profiles = lookupKey k d.profiles) ∧
      d'.settings = d.settings ∧ d'.version = d.version := by
  have hreg := from_link_reg url mdir pn env w hz hh hd he
  have hout := from_link_outcome url mdir pn env w hz hh hd he
  rw [hw] at hout hreg
  rw [updateLauncherProfiles_doc w.reg pn env.versionInput
    (joinPath (joinPath (joinPath mdir instancesSeg) pn) minecraftSeg) d hl] at hreg
  refine ⟨by simp [hout], ?_⟩
  refine ⟨{ profiles := dictInsert pn (mkProfileEntry pn env.versionInput (joinPath (joinPath (joinPath mdir instancesSeg) pn) minecraftSeg)) d.profiles, settings := d.settings, version := d.version }, ?_, ?_, ?_, ?_, rfl, rfl⟩
  · rw [hreg]
  · exact countKey_dictInsert_of_nodup _ _ _ hnd
  · exact lookupKey_dictInsert_self _ _ _
  · intro k hk
    exact lookupKey_dictInsert_ne _ _ _ _ hk

/-- C1 witness: a concrete successful run over a registry holding one other
profile ends with outcome ok. -/
theorem claim_C1_witness :
    (download_and_install_ftb_pack_from_link urlOk cexRoot cexName okEnv worldDoc).2.2 =
      Outcome.ok :=
  (claim_C1 urlOk cexRoot cexName okEnv worldDoc docW (by decide) (by decide) rfl rfl rfl rfl
    (by unfold keysNodup; decide)).1

/-- C2 (amended): for every input URL that does not end in ".zip" or does not
start with "http", the archive installer prints a message and returns with the
world unchanged: no directory created, no download attempted, the registry
file untouched. -/
theorem claim_C2 (url mdir pn : Str) (env : ArchiveEnv) (w : World)
    (h : strEndsWith url zipExt = false ∨ strStartsWith url httpPfx = false) :
    download_and_install_ftb_pack_from_link url mdir pn env w =
      (w, [Event.printInvalidUrl], Outcome.invalidUrl) :=
  from_link_reject url mdir pn env w h

/-- C2 counterexample: the URL "httpx://a.zip" does not have scheme http or
https, so the claim as stated requires rejection without side effects, but the
code (which only tests startswith "http") accepts it and creates directories
before attempting the download. -/
theorem claim_C2_counterexample :
    schemeIsHttpS badSchemeUrl = false ∧
    ((download_and_install_ftb_pack_from_link badSchemeUrl cexRoot cexName cexEnv
        cexWorld).2.1.any isMkDirEv) = true ∧
    (download_and_install_ftb_pack_from_link badSchemeUrl cexRoot cexName cexEnv
        cexWorld).1 ≠ cexWorld := by
  decide

/-- C2 witness: the amended theorem applied to the concrete URL
"ftp://x.zip". -/
theorem claim_C2_witness :
    download_and_install_ftb_pack_from_link ftpUrl cexRoot cexName cexEnv cexWorld =
      (cexWorld, [Event.printInvalidUrl], Outcome.invalidUrl) :=
  claim_C2 ftpUrl cexRoot cexName cexEnv cexWorld (Or.inr (by decide))

/-- C3: when the registry file holds bytes that fail to parse, a successful
run preserves those bytes in the sibling backup file (overwriting any prior
backup), continues from the default document, and leaves the live registry
file holding the default-shaped document plus exactly the one new profile
entry. -/
theorem claim_C3 (url mdir pn : Str) (env : ArchiveEnv) (w : World) (b : Str)
    (hz : strEndsWith url zipExt = true) (hh : strStartsWith url httpPfx = true)
    (hd : env.downloadOk = true) (he : env.extractOk = true) (hw : env.writeOk = true)
    (hl : w.reg.live = some (RegContent.raw b)) :
    (download_and_install_ftb_pack_from_link url mdir pn env w).1.reg.bak =
      some (RegContent.raw b) ∧
    (download_and_install_ftb_pack_from_link url mdir pn env w).1.reg.live =
      some (RegContent.doc
        { profiles := [(pn, mkProfileEntry pn env.versionInput (joinPath (joinPath (joinPath mdir instancesSeg) pn) minecraftSeg))], settings := [], version := 2 }) ∧
    (download_and_install_ftb_pack_from_link url mdir pn env w).2.2 = Outcome.ok := by
  have hreg := from_link_reg url mdir pn env w hz hh hd he
  have hout := from_link_outcome url mdir pn env w hz hh hd he
  rw [hw] at hout hreg
  rw [updateLauncherProfiles_raw w.reg pn env.versionInput
    (joinPath (joinPath (joinPath mdir instancesSeg) pn) minecraftSeg) b hl] at hreg
  refine ⟨?_, ?_, by simp [hout]⟩
  · rw [hreg]
  · rw [hreg]

/-- C3 witness: a concrete run over a corrupt registry file ends with the
original bytes in the backup slot. -/
theorem claim_C3_witness :
    (download_and_install_ftb_pack_from_link urlOk cexRoot cexName okEnv worldRaw).1.reg.bak =
      some (RegContent.raw ("oops".toList)) :=
  (claim_C3 urlOk cexRoot cexName okEnv worldRaw ("oops".toList) (by decide) (by decide)
    rfl rfl rfl rfl).1

/-- C4: inserting an entry for a name that is already present replaces the
binding in place (same key sequence, hence same length and position) and binds
the new value; and after any registry-updater run starting from a document
with unique profile names, profile names are still unique. -/
theorem claim_C4 (k : Str) (v : Profile) (l : List (Str × Profile))
    (hc : containsKey k l = true) (hnd : keysNodup l) :
    (dictInsert k v l).length = l.length ∧
    (dictInsert k v l).map Prod.fst = l.map Prod.fst ∧
    lookupKey k (dictInsert k v l) = some v ∧
    keysNodup (dictInsert k v l) ∧
    (∀ (reg : RegState) (pn ver gd : Str) (wOk : Bool) (d' : RegistryDoc),
      (∀ d0, reg.live = some (RegContent.doc d0) → keysNodup d0.profiles) →
      (updateLauncherProfiles reg pn ver gd wOk).1.live = some (RegContent.doc d') →
      keysNodup d'.profiles) := by
  refine ⟨length_dictInsert_of_containsKey k v l hc,
    keys_dictInsert_of_containsKey k v l hc,
    lookupKey_dictInsert_self k v l,
    keysNodup_dictInsert k v l hnd, ?_⟩
  intro reg pn ver gd wOk d' hwf hres
  cases wOk with
  | false =>
    rw [updateLauncherProfiles_live_false] at hres
    exact hwf d' hres
  | true =>
    cases hl : reg.live with
    | none =>
      rw [updateLauncherProfiles_none reg pn ver gd hl] at hres
      simp at hres
      rw [← hres]
      unfold keysNodup
      simp
    | some cont =>
      cases cont with
      | raw b =>
        rw [updateLauncherProfiles_raw reg pn ver gd b hl] at hres
        simp at hres
        rw [← hres]
        unfold keysNodup
        simp
      | doc d0 =>
        rw [updateLauncherProfiles_doc reg pn ver gd d0 hl] at hres
        simp at hres
        rw [← hres]
        exact keysNodup_dictInsert _ _ _ (hwf d0 hl)

/-- C4 witness: overwriting the existing entry keyed "Other" keeps the mapping
size unchanged. -/
theorem claim_C4_witness :
    (dictInsert ("Other".toList) otherProfile docW.profiles).length =
      docW.profiles.length :=
  (claim_C4 ("Other".toList) otherProfile docW.profiles (by decide)
    (by unfold keysNodup; decide)).1

/-- C5 (amended): for every collected link in the scrape installer, the
dispatch is: an existing local file is copied into the mods subdirectory; a
remaining link starting with "http" is stream-downloaded into that
subdirectory under its final path segment; any other link is reported as
unsupported; every per-link copy or download failure only produces a report,
the loop continues, and the registry update at the end still executes. -/
theorem claim_C5 (mdir pn : Str) (env : HtmlEnv) (w : World) (hh : env.htmlOk = true) :
    (download_and_install_ftb_pack_from_html mdir pn env w).2.1 =
      Event.mkDirEv (joinPath mdir modsSeg) ::
        (((collectModLinks env.anchors).map (processLink env (joinPath mdir modsSeg))).flatten ++
         (updateLauncherProfiles w.reg pn env.versionInput mdir env.writeOk).2.1) ∧
    ((download_and_install_ftb_pack_from_html mdir pn env w).2.2 = Outcome.ok ∨
     (download_and_install_ftb_pack_from_html mdir pn env w).2.2 = Outcome.writeFailed) ∧
    (∀ link : Str, env.isLocalFile link = true →
      processLink env (joinPath mdir modsSeg) link =
        (if env.copyOk link then [Event.copyModEv link (joinPath mdir modsSeg)]
         else [Event.printCopyError link])) ∧
    (∀ link : Str, env.isLocalFile link = false → strStartsWith link httpPfx = true →
      processLink env (joinPath mdir modsSeg) link =
        (if env.getRaises link then [Event.printDownloadErrorLink link]
         else if env.status link = 200 then
           [Event.downloadModEv link (joinPath (joinPath mdir modsSeg) (pathName link))]
         else [Event.printStatusError link])) ∧
    (∀ link : Str, env.isLocalFile link = false → strStartsWith link httpPfx = false →
      processLink env (joinPath mdir modsSeg) link = [Event.printUnsupported link]) := by
  rw [from_html_run_eq mdir pn env w hh]
  refine ⟨rfl, ?_, ?_, ?_, ?_⟩
  · cases hb : (updateLauncherProfiles w.reg pn env.versionInput mdir env.writeOk).2.2 with
    | false => right; simp
    | true => left; simp
  · intro link hloc
    simp [processLink, hloc]
  · intro link hloc hhttp
    simp [processLink, hloc, hhttp]
  · intro link hloc hhttp
    simp [processLink, hloc, hhttp]

/-- C5 counterexample: the collected link "httpx.jar" is not a local file and
is not an HTTP(S) URL, so the claim as stated requires an unsupported-link
report; the code instead downloads it, because the dispatch only tests
startswith "http". -/
theorem claim_C5_counterexample :
    c5env.isLocalFile c5link = false ∧ schemeIsHttpS c5link = false ∧
    c5link ∈ collectModLinks c5env.anchors ∧
    processLink c5env (joinPath cexRoot modsSeg) c5link ≠
      [Event.printUnsupported c5link] ∧
    (processLink c5env (joinPath cexRoot modsSeg) c5link).any isDownloadModEv = true := by
  decide

/-- C5 witness: a concrete scrape run over one collected link finishes at the
registry update. -/
theorem claim_C5_witness :
    (download_and_install_ftb_pack_from_html cexRoot cexName c5env cexWorld).2.2 =
        Outcome.ok ∨
    (download_and_install_ftb_pack_from_html cexRoot cexName c5env cexWorld).2.2 =
        Outcome.writeFailed :=
  (claim_C5 cexRoot cexName c5env cexWorld rfl).2.1

/-- C6: the scrape installer collects exactly the anchor href targets ending
in ".jar" or ".zip"; a link with any other suffix is never collected and no
copy, download or per-link report about it ever appears in the run's trace. -/
theorem claim_C6 (env : HtmlEnv) (l : Str) :
    (l ∈ collectModLinks env.anchors ↔
      some l ∈ env.anchors ∧
        (strEndsWith l jarExt = true ∨ strEndsWith l zipExt = true)) ∧
    (strEndsWith l jarExt = false → strEndsWith l zipExt = false →
      l ∉ collectModLinks env.anchors ∧
      ∀ (mdir pn : Str) (w : World) (e : Event),
        e ∈ (download_and_install_ftb_pack_from_html mdir pn env w).2.1 →
        eventLink e ≠ some l) := by
  refine ⟨mem_collectModLinks env.anchors l, ?_⟩
  intro hj hz
  have hnot : l ∉ collectModLinks env.anchors := by
    rw [mem_collectModLinks]
    rintro ⟨-, h | h⟩
    · rw [hj] at h
      exact absurd h (by decide)
    · rw [hz] at h
      exact absurd h (by decide)
  refine ⟨hnot, ?_⟩
  intro mdir pn w e he hle
  cases hhtml : env.htmlOk with
  | false =>
    simp [download_and_install_ftb_pack_from_html, hhtml] at he
    subst he
    simp [eventLink] at hle
  | true =>
    rw [from_html_run_eq mdir pn env w hhtml] at he
    simp only [List.mem_cons, List.mem_append] at he
    rcases he with rfl | he | he
    · simp [eventLink] at hle
    · rw [List.mem_flatten] at he
      obtain ⟨s, hs, hes⟩ := he
      rw [List.mem_map] at hs
      obtain ⟨lk, hlk, rfl⟩ := hs
      have hev := eventLink_processLink env _ lk e hes
      rw [hev] at hle
      obtain rfl := Option.some.inj hle
      exact hnot hlk
    · have hru := isRegUpdEv_of_mem_update w.reg pn env.versionInput mdir env.writeOk e he
      rw [eventLink_none_of_isRegUpdEv e hru] at hle
      exact Option.noConfusion hle

/-- C6 witness: a ".txt" link is not collected. -/
theorem claim_C6_witness :
    ("a.txt".toList) ∉ collectModLinks c6env.anchors :=
  ((claim_C6 c6env ("a.txt".toList)).2 (by decide) (by decide)).1

/-- C7: when the download or the extraction of the archive fails, the error is
reported and every remaining step is skipped: no subfolder move happens, the
registry updater never runs, the registry file is unchanged, and the files
already written (the downloaded archive, in the extraction-failure case) stay
in place. -/
theorem claim_C7 (url mdir pn : Str) (env : ArchiveEnv) (w : World)
    (hz : strEndsWith url zipExt = true) (hh : strStartsWith url httpPfx = true)
    (hf : env.downloadOk = false ∨ env.extractOk = false) :
    (download_and_install_ftb_pack_from_link url mdir pn env w).1.reg = w.reg ∧
    ((download_and_install_ftb_pack_from_link url mdir pn env w).2.2 =
        Outcome.downloadFailed ∨
     (download_and_install_ftb_pack_from_link url mdir pn env w).2.2 =
        Outcome.extractFailed) ∧
    (∀ e ∈ (download_and_install_ftb_pack_from_link url mdir pn env w).2.1,
      isMoveEv e = false ∧ isRegUpdEv e = false) ∧
    (env.downloadOk = true →
      Event.downloadEv url (joinPath (joinPath (joinPath mdir instancesSeg) pn) packZipSeg) ∈
        (download_and_install_ftb_pack_from_link url mdir pn env w).2.1) := by
  cases hdl : env.downloadOk with
  | false =>
    rw [from_link_download_fail url mdir pn env w hz hh hdl]
    refine ⟨rfl, Or.inl rfl, ?_, ?_⟩
    · intro e he
      simp only [List.mem_cons, List.not_mem_nil, or_false] at he
      rcases he with rfl | rfl | rfl | rfl <;> exact ⟨rfl, rfl⟩
    · intro hcon
      exact absurd hcon (by decide)
  | true =>
    have hex : env.extractOk = false := by
      rcases hf with h | h
      · rw [hdl] at h
        exact absurd h (by decide)
      · exact h
    rw [from_link_extract_fail url mdir pn env w hz hh hdl hex]
    refine ⟨rfl, Or.inr rfl, ?_, ?_⟩
    · intro e he
      simp only [List.mem_cons, List.not_mem_nil, or_false] at he
      rcases he with rfl | rfl | rfl | rfl | rfl <;> exact ⟨rfl, rfl⟩
    · intro hcon
      simp

/-- C7 witness: a concrete run whose download fails leaves the registry
untouched. -/
theorem claim_C7_witness :
    (download_and_install_ftb_pack_from_link urlOk cexRoot cexName cexEnv cexWorld).1.reg =
      cexWorld.reg :=
  (claim_C7 urlOk cexRoot cexName cexEnv cexWorld (by decide) (by decide) (Or.inl rfl)).1

/-- C8: destination-directory creation is idempotent: `pyMkdir` on an existing
path fails without exist_ok and succeeds with it, every mkdir in the archive
installer passes exist_ok, and therefore no run — over any starting world, in
particular the world left by an earlier run with the same pack name, in which
the destination directories (instances/pack/minecraft and its
mods/config/libraries subfolders) already exist — ever fails because a
destination directory already exists. -/
theorem claim_C8 (url mdir pn : Str) (env1 env2 : ArchiveEnv) (w : World) :
    (∀ (env' : ArchiveEnv) (w' : World),
      (download_and_install_ftb_pack_from_link url mdir pn env' w').2.2 ≠
        Outcome.dirExistsFailure) ∧
    (download_and_install_ftb_pack_from_link url mdir pn env2
      (download_and_install_ftb_pack_from_link url mdir pn env1 w).1).2.2 ≠
      Outcome.dirExistsFailure ∧
    (∀ (dirs : List Str) (p : Str), p ∈ dirs →
      pyMkdir dirs p false = Except.error () ∧ pyMkdir dirs p true = Except.ok dirs) := by
  refine ⟨fun env' w' => from_link_no_dirExists url mdir pn env' w',
    from_link_no_dirExists url mdir pn env2 _, ?_⟩
  intro dirs p hp
  constructor
  · simp [pyMkdir, hp]
  · simp [pyMkdir, hp]

/-- C8 witness: a concrete second run over the world left by a first run with
the same pack name does not end in the directory-exists failure, while a bare
mkdir (without exist_ok) on an existing path does fail. -/
theorem claim_C8_witness :
    (download_and_install_ftb_pack_from_link urlOk cexRoot cexName okEnv
      (download_and_install_ftb_pack_from_link urlOk cexRoot cexName okEnv cexWorld).1).2.2 ≠
      Outcome.dirExistsFailure ∧
    pyMkdir [cexRoot] cexRoot false = Except.error () :=
  ⟨(claim_C8 urlOk cexRoot cexName okEnv okEnv cexWorld).2.1,
   ((claim_C8 urlOk cexRoot cexName okEnv okEnv cexWorld).2.2 [cexRoot] cexRoot
     (by decide)).1⟩

/-- C9: extension matching is case-sensitive on both paths: a URL ending
".ZIP" is rejected outright by the archive installer, and a hyperlink target
ending ".JAR" or ".ZIP" is never collected by the scrape installer. -/
theorem claim_C9 :
    (∀ (url mdir pn : Str) (env : ArchiveEnv) (w : World),
      strEndsWith url zipUpperExt = true →
      download_and_install_ftb_pack_from_link url mdir pn env w =
        (w, [Event.printInvalidUrl], Outcome.invalidUrl)) ∧
    (∀ (anchors : List (Option Str)) (href : Str),
      (strEndsWith href jarUpperExt = true ∨ strEndsWith href zipUpperExt = true) →
      href ∉ collectModLinks anchors) := by
  constructor
  · intro url mdir pn env w hu
    exact from_link_reject url mdir pn env w (Or.inl (endsWith_ZIP_excl hu).2)
  · intro anchors href h
    rw [mem_collectModLinks]
    rintro ⟨-, hor⟩
    rcases h with h | h
    · rcases hor with h2 | h2
      · rw [(endsWith_JAR_excl h).1] at h2
        exact absurd h2 (by decide)
      · rw [(endsWith_JAR_excl h).2] at h2
        exact absurd h2 (by decide)
    · rcases hor with h2 | h2
      · rw [(endsWith_ZIP_excl h).1] at h2
        exact absurd h2 (by decide)
      · rw [(endsWith_ZIP_excl h).2] at h2
        exact absurd h2 (by decide)

/-- C9 witness: the URL "http://a.ZIP" is rejected and the href "b.JAR" is not
collected. -/
theorem claim_C9_witness :
    download_and_install_ftb_pack_from_link zipUpperUrl cexRoot cexName cexEnv cexWorld =
        (cexWorld, [Event.printInvalidUrl], Outcome.invalidUrl) ∧
    ("b.JAR".toList) ∉ collectModLinks [some ("b.JAR".toList)] :=
  ⟨claim_C9.1 zipUpperUrl cexRoot cexName cexEnv cexWorld (by decide),
   claim_C9.2 [some ("b.JAR".toList)] ("b.JAR".toList) (Or.inl (by decide))⟩

/-- C10: in the per-link dispatch the local-file test takes precedence over
the URL test: a link that both names an existing local file and starts with
"http" is handled by the copy branch and never produces a download. -/
theorem claim_C10 (env : HtmlEnv) (modsDir link : Str)
    (hloc : env.isLocalFile link = true) (hhttp : strStartsWith link httpPfx = true) :
    (processLink env modsDir link = [Event.copyModEv link modsDir] ∨
     processLink env modsDir link = [Event.printCopyError link]) ∧
    (∀ e ∈ processLink env modsDir link, isDownloadModEv e = false) := by
  constructor
  · cases hc : env.copyOk link with
    | false =>
      right
      simp [processLink, hloc, hc]
    | true =>
      left
      simp [processLink, hloc, hc]
  · intro e he
    simp only [processLink, hloc, if_true] at he
    cases hc : env.copyOk link <;> rw [hc] at he <;> simp at he <;> subst he <;> rfl

/-- C10 witness: the link "http/c.jar", an existing local file starting with
"http", is copied rather than downloaded. -/
theorem claim_C10_witness :
    processLink c10env (joinPath cexRoot modsSeg) ("http/c.jar".toList) =
        [Event.copyModEv ("http/c.jar".toList) (joinPath cexRoot modsSeg)] ∨
    processLink c10env (joinPath cexRoot modsSeg) ("http/c.jar".toList) =
        [Event.printCopyError ("http/c.jar".toList)] :=
  (claim_C10 c10env (joinPath cexRoot modsSeg) ("http/c.jar".toList) rfl (by decide)).1
